import Mathlib

/-!
Verification of the conflict-detection and invoice-week engine of the
freight-invoicing service.

A JavaScript date value is modelled by an `Option Int`: `some t` is a valid
`Date` holding `t` milliseconds since the Unix epoch (UTC), `none` is an
invalid date (`NaN` time value).  All arithmetic that the source performs on
`Date` objects is on this millisecond timestamp.
-/

namespace Invoicing

/-- Milliseconds per day, the constant MS_PER_DAY = 24 * 60 * 60 * 1000 of
invoiceWeekService.js, written as its numeral value. -/
def MS_PER_DAY : Int := 86400000

/-- Epoch-day number of a timestamp: its UTC milliseconds floor-divided by
MS_PER_DAY.  The JavaScript accessors getUTCFullYear / getUTCMonth /
getUTCDate of a Date are functions of this number, and two timestamps share
their UTC calendar day exactly when their epoch-day numbers are equal.
For the positive divisor MS_PER_DAY, division on Int is floor division. -/
def utcDayNumber (t : Int) : Int := t / MS_PER_DAY

/-- toUtcMidnight of invoiceWeekService.js: null for an invalid date, else
the Date at UTC midnight of the same UTC calendar day, i.e.
Date.UTC (getUTCFullYear d, getUTCMonth d, getUTCDate d). -/
def toUtcMidnight (dateValue : Option Int) : Option Int :=
  dateValue.map (fun t => MS_PER_DAY * utcDayNumber t)

/-- JavaScript getUTCDay: 0 = Sunday .. 6 = Saturday.  Epoch day 0
(1970-01-01) was a Thursday, hence the offset 4. -/
def getUTCDay (t : Int) : Int := (utcDayNumber t + 4) % 7

/-- datesHaveSameUtcYmd of invoiceWeekService.js compares the UTC
year/month/day triples of two Dates; the triples agree exactly when the two
timestamps lie on the same UTC calendar day. -/
def datesHaveSameUtcYmd (a b : Int) : Bool := utcDayNumber a == utcDayNumber b

/-- Proleptic-Gregorian (year, month, day) of an epoch-day number; this is
the calendar computation behind the date components that
Date.prototype.toISOString prints. -/
def civilFromDays (z0 : Int) : Int × Int × Int :=
  let z := z0 + 719468
  let era := z / 146097
  let doe := z - era * 146097
  let yoe := (doe - doe / 1461 + doe / 36524 - doe / 146096) / 365
  let y := yoe + era * 400
  let doy := doe - (365 * yoe + yoe / 4 - yoe / 100)
  let mp := (5 * doy + 2) / 153
  let dd := doy - (153 * mp + 2) / 5 + 1
  let m := mp + (if mp < 10 then 3 else -9)
  (if m ≤ 2 then y + 1 else y, m, dd)

/-- Left-pad the decimal form of a number with zeros to a given width. -/
def padZeros (width : Nat) (n : Nat) : String :=
  let s := toString n
  String.mk (List.replicate (width - s.length) '0') ++ s

/-- The first ten characters of Date.prototype.toISOString, i.e. the
"YYYY-MM-DD" form of the UTC calendar date, modelled for the years
0 .. 9999 (the only range this application produces). -/
def isoDateSlice (t : Int) : String :=
  let c := civilFromDays (utcDayNumber t)
  padZeros 4 c.1.toNat ++ "-" ++ padZeros 2 c.2.1.toNat ++ "-" ++ padZeros 2 c.2.2.toNat

/-- Result record of computeInvoiceWeekFields. -/
structure InvoiceWeekFields where
  invoiceMonday : Int
  invoiceWeekId : String
deriving Repr, DecidableEq

/-- computeInvoiceWeekFields of invoiceWeekService.js. -/
def computeInvoiceWeekFields (pickupDate deliveryDate : Option Int) :
    Option InvoiceWeekFields :=
  match toUtcMidnight pickupDate, toUtcMidnight deliveryDate with
  | some pickupMidnight, some deliveryMidnight =>
    let deliveryDow := getUTCDay deliveryMidnight
    let daysSinceMonday := if deliveryDow = 0 then 6 else deliveryDow - 1
    let invoiceMonday0 := deliveryMidnight - daysSinceMonday * MS_PER_DAY
    let invoiceMonday :=
      if datesHaveSameUtcYmd pickupMidnight invoiceMonday0 then
        invoiceMonday0 + 7 * MS_PER_DAY
      else invoiceMonday0
    some { invoiceMonday := invoiceMonday, invoiceWeekId := isoDateSlice invoiceMonday }
  | _, _ => none

/-- toUtcDateOnly of driverConflictService.js: normalize a Date to a
date-only UTC-midnight Date (the same floor-to-day as toUtcMidnight,
defined on the raw timestamp of a valid Date). -/
def toUtcDateOnly (t : Int) : Int := MS_PER_DAY * utcDayNumber t

/-- intervalsOverlapDateOnly of driverConflictService.js: strict half-open
interval overlap of the date-only normalizations. -/
def intervalsOverlapDateOnly (pickupA deliveryA pickupB deliveryB : Int) : Bool :=
  decide (toUtcDateOnly pickupA < toUtcDateOnly deliveryB) &&
  decide (toUtcDateOnly pickupB < toUtcDateOnly deliveryA)

/-- A load record, with the fields of the Load schema that the conflict and
invoice-week engines read and write.  Dates are nullable Date values
(`none` when the field is absent). -/
structure Load where
  id : Nat
  cancelled : Bool
  driver_id : Option Nat
  carrier_id : Option Nat
  load_number : String
  pickup_date : Option Int
  delivery_date : Option Int
  confirmed : Bool
  driver_conflict : Bool
  driver_conflict_ids : List Nat
  duplicate_conflict : Bool
  duplicate_conflict_ids : List Nat
  date_conflict_ids : List Nat
deriving Repr, DecidableEq

/-- Both dates of a load are set (the skip condition of the recomputation
loops). -/
def hasBothDates (l : Load) : Bool :=
  l.pickup_date.isSome && l.delivery_date.isSome

/-- Guarded overlap of two loads: the loops test the presence of both dates
before calling intervalsOverlapDateOnly, so a load missing a date never
overlaps anything. -/
def loadsOverlap (a b : Load) : Bool :=
  match a.pickup_date, a.delivery_date, b.pickup_date, b.delivery_date with
  | some pa, some da, some pb, some db_ => intervalsOverlapDateOnly pa da pb db_
  | _, _, _, _ => false

/-- The query of recalculateDriverConflictsForDriver: all non-cancelled
loads of the driver, in collection order. -/
def driverLoadsFor (driverId : Nat) (db : List Load) : List Load :=
  db.filter (fun l => !l.cancelled && l.driver_id == some driverId)

/-- Inner loop (index j) of the pairwise pass of
recalculateDriverConflictsForDriver: for each later load b with both dates
that overlaps a, record the two pushes conflictMap(a) += b.id and
conflictMap(b) += a.id, as the pairs (a.id, b.id) and (b.id, a.id). -/
def driverPairsInner (a : Load) : List Load → List (Nat × Nat)
  | [] => []
  | b :: rest =>
    if hasBothDates b && loadsOverlap a b then
      (a.id, b.id) :: (b.id, a.id) :: driverPairsInner a rest
    else
      driverPairsInner a rest

/-- Outer loop (index i) of the pairwise pass: loads missing a date skip
their whole inner loop. -/
def driverPairs : List Load → List (Nat × Nat)
  | [] => []
  | a :: rest =>
    (if hasBothDates a then driverPairsInner a rest else []) ++ driverPairs rest

/-- The content of conflictMap for one id: all second components of the
recorded pushes whose key is that id, in push order. -/
def conflictIdsFor (pairs : List (Nat × Nat)) (i : Nat) : List Nat :=
  (pairs.filter (fun p => p.1 == i)).map Prod.snd

/-- The $set of the persistence step of the driver-conflict engine. -/
def setDriverConflictFields (ids : List Nat) (l : Load) : Load :=
  { l with driver_conflict_ids := ids, driver_conflict := decide (0 < ids.length) }

/-- recalculateDriverConflictsForDriver of driverConflictService.js.  A
missing driver id is a no-op; otherwise every non-cancelled load of the
driver receives the recomputed conflict list (updateOne by _id, written
here as a map over the collection, which coincides for unique ids). -/
def recalculateDriverConflictsForDriver (driverId : Option Nat) (db : List Load) :
    List Load :=
  match driverId with
  | none => db
  | some d =>
    let loads := driverLoadsFor d db
    let pairs := driverPairs loads
    db.map (fun l =>
      if loads.any (fun x => x.id == l.id) then
        setDriverConflictFields (conflictIdsFor pairs l.id) l
      else l)

/-- A concrete example load of driver 5 spanning days 0 .. 4. -/
def exLoadA : Load :=
  { id := 1, cancelled := false, driver_id := some 5, carrier_id := some 9,
    load_number := "LA", pickup_date := some 0,
    delivery_date := some (4 * MS_PER_DAY), confirmed := true,
    driver_conflict := false, driver_conflict_ids := [],
    duplicate_conflict := false, duplicate_conflict_ids := [],
    date_conflict_ids := [] }

/-- A concrete example load of driver 5 spanning days 3 .. 7, overlapping
exLoadA. -/
def exLoadB : Load :=
  { id := 2, cancelled := false, driver_id := some 5, carrier_id := some 9,
    load_number := "LB", pickup_date := some (3 * MS_PER_DAY),
    delivery_date := some (7 * MS_PER_DAY), confirmed := true,
    driver_conflict := false, driver_conflict_ids := [],
    duplicate_conflict := false, duplicate_conflict_ids := [],
    date_conflict_ids := [] }

/-- A cancelled load of driver 5 that would otherwise overlap both. -/
def exLoadC : Load :=
  { id := 3, cancelled := true, driver_id := some 5, carrier_id := some 9,
    load_number := "LC", pickup_date := some 0,
    delivery_date := some (9 * MS_PER_DAY), confirmed := true,
    driver_conflict := false, driver_conflict_ids := [],
    duplicate_conflict := false, duplicate_conflict_ids := [],
    date_conflict_ids := [] }

/-- A load of a different driver. -/
def exLoadD : Load :=
  { id := 4, cancelled := false, driver_id := some 6, carrier_id := some 9,
    load_number := "LD", pickup_date := some 0,
    delivery_date := some (9 * MS_PER_DAY), confirmed := true,
    driver_conflict := false, driver_conflict_ids := [],
    duplicate_conflict := false, duplicate_conflict_ids := [],
    date_conflict_ids := [] }

/-- Concrete collection used to witness the driver-conflict theorems. -/
def exDbDriver : List Load := [exLoadA, exLoadB, exLoadC, exLoadD]

/-- The characters that escapeRegex of the duplicate-conflict service
escapes: dot, star, plus, question mark, caret, dollar, braces,
parentheses, pipe, brackets and backslash. -/
def isRegexMeta (c : Char) : Bool :=
  c == '.' || c == '*' || c == '+' || c == '?' || c == '^' || c == '$' ||
  c == Char.ofNat 123 || c == Char.ofNat 125 ||
  c == '(' || c == ')' || c == '|' || c == '[' || c == ']' || c == '\\'

/-- escapeRegex of the duplicate-conflict service, on the character list of
the pattern: prefix every metacharacter with a backslash. -/
def escapeRegexChars : List Char → List Char
  | [] => []
  | c :: rest =>
    if isRegexMeta c then '\\' :: c :: escapeRegexChars rest
    else c :: escapeRegexChars rest

/-- escapeRegex of the duplicate-conflict service. -/
def escapeRegex (s : String) : String := String.mk (escapeRegexChars s.data)

/-- Parse a regular-expression pattern that is a plain sequence of literal
(possibly backslash-escaped) characters into that character sequence; a
pattern containing an unescaped metacharacter or a trailing backslash is
outside this fragment and yields none. -/
def regexLiteralChars : List Char → Option (List Char)
  | [] => some []
  | c :: rest =>
    if c = '\\' then
      match rest with
      | [] => none
      | c2 :: rest2 => (regexLiteralChars rest2).map (fun ts => c2 :: ts)
    else if isRegexMeta c then none
    else (regexLiteralChars rest).map (fun ts => c :: ts)

/-- ASCII case folding, modelling both the regular-expression flag i and
JavaScript toLowerCase for the alphabet load numbers use. -/
def foldCase (cs : List Char) : List Char := cs.map Char.toLower

/-- Matching of new RegExp of an anchored pattern with flag i against a
string, modelled for patterns in the escaped-literal fragment (the only
patterns this code builds): such an anchored pattern matches exactly the
strings equal to its literal text up to case.  Patterns outside the
fragment are not modelled and match nothing here. -/
def anchoredCaseInsensitiveMatch (pattern : String) (s : String) : Bool :=
  match regexLiteralChars pattern.data with
  | some lits => foldCase lits == foldCase s.data
  | none => false

/-- The whitespace characters that the JavaScript trim removes, modelled
for the characters that occur in load numbers. -/
def isJsWhitespace (c : Char) : Bool :=
  c == ' ' || c == '\t' || c == '\n' || c == '\r'

/-- JavaScript String.prototype.trim on a character list: drop whitespace
from both ends. -/
def trimChars (cs : List Char) : List Char :=
  ((cs.dropWhile isJsWhitespace).reverse.dropWhile isJsWhitespace).reverse

/-- normalizeLoadNumber of the duplicate-conflict service. -/
def normalizeLoadNumber (loadNumber : String) : String :=
  String.mk (trimChars loadNumber.data)

/-- Literal case-insensitive string equality, the specification-side
comparison of the duplicate-group query. -/
def caseInsensitiveEq (a b : String) : Bool := foldCase a.data == foldCase b.data

/-- getDuplicateGroupLoads of the duplicate-conflict service: the
non-cancelled loads of the carrier whose load_number matches the anchored
case-insensitive regular expression built from the escaped trimmed input. -/
def getDuplicateGroupLoads (carrierId : Option Nat) (loadNumber : String)
    (db : List Load) : List Load :=
  match carrierId with
  | none => []
  | some c =>
    let normalized := normalizeLoadNumber loadNumber
    if normalized == "" then []
    else
      db.filter (fun l => !l.cancelled && l.carrier_id == some c &&
        anchoredCaseInsensitiveMatch (escapeRegex normalized) l.load_number)

/-- The $set of the duplicate-conflict persistence steps. -/
def setDuplicateConflictFields (ids : List Nat) (l : Load) : Load :=
  { l with duplicate_conflict_ids := ids, duplicate_conflict := decide (0 < ids.length) }

/-- recalculateDuplicateConflictsForCarrierLoadNumber of the
duplicate-conflict service: every load of the duplicate group receives all
the other group members as duplicate_conflict_ids. -/
def recalculateDuplicateConflictsForCarrierLoadNumber (carrierId : Option Nat)
    (loadNumber : String) (db : List Load) : List Load :=
  let loads := getDuplicateGroupLoads carrierId loadNumber db
  if loads.isEmpty then db
  else
    let ids := loads.map Load.id
    db.map (fun l =>
      if loads.any (fun g => g.id == l.id) then
        setDuplicateConflictFields (ids.filter (fun i => !(i == l.id))) l
      else l)

/-- clearDuplicateConflictsForLoad of the duplicate-conflict service. -/
def clearDuplicateConflictsForLoad (loadId : Nat) (db : List Load) : List Load :=
  db.map (fun l =>
    if l.id == loadId then
      { l with duplicate_conflict := false, duplicate_conflict_ids := [] }
    else l)

/-- checkAndUpdateDuplicateConflictsForLoad of the duplicate-conflict
service: clears the flags of this load when carrier or number is missing,
else writes the current duplicate group minus itself onto this load only. -/
def checkAndUpdateDuplicateConflictsForLoad (loadId : Nat) (carrierId : Option Nat)
    (loadNumber : String) (db : List Load) : List Load :=
  if carrierId.isNone || normalizeLoadNumber loadNumber == "" then
    clearDuplicateConflictsForLoad loadId db
  else
    let group := getDuplicateGroupLoads carrierId loadNumber db
    let conflictIds := (group.filter (fun l => !(l.id == loadId))).map Load.id
    db.map (fun l =>
      if l.id == loadId then setDuplicateConflictFields conflictIds l else l)

/-- findDriverConflictingLoads of driverConflictService.js: the other
non-cancelled loads of the driver with both dates present whose intervals
overlap the given dates. -/
def findDriverConflictingLoads (loadId : Nat) (pickupDate deliveryDate : Option Int)
    (driverId : Option Nat) (db : List Load) : List Nat :=
  match driverId with
  | none => []
  | some d =>
    match pickupDate, deliveryDate with
    | some p, some dd =>
      ((db.filter (fun l =>
          !(l.id == loadId) && !l.cancelled && l.driver_id == some d)).filter
        (fun l =>
          match l.pickup_date, l.delivery_date with
          | some lp, some ld => intervalsOverlapDateOnly p dd lp ld
          | _, _ => false)).map Load.id
    | _, _ => []

/-- updateLoadDriverConflicts of driverConflictService.js (findById and
save, written as a map over the collection, which coincides for unique
ids). -/
def updateLoadDriverConflicts (loadId : Nat) (conflictIds : List Nat)
    (db : List Load) : List Load :=
  db.map (fun l => if l.id == loadId then setDriverConflictFields conflictIds l else l)

/-- checkAndUpdateDriverConflictsForLoad of driverConflictService.js: with
a missing driver or date it clears only this load's flags; otherwise it
computes the conflicts against the other loads of the driver and writes
only this load's flags. -/
def checkAndUpdateDriverConflictsForLoad (loadId : Nat)
    (pickupDate deliveryDate : Option Int) (driverId : Option Nat)
    (db : List Load) : List Load :=
  if driverId.isNone || pickupDate.isNone || deliveryDate.isNone then
    db.map (fun l =>
      if l.id == loadId then
        { l with driver_conflict := false, driver_conflict_ids := [] }
      else l)
  else
    updateLoadDriverConflicts loadId
      (findDriverConflictingLoads loadId pickupDate deliveryDate driverId db) db

/-- The self-exclusion invariant of the data model: no load lists its own
id in any of its conflict sets. -/
def selfExcluded (db : List Load) : Prop :=
  ∀ l ∈ db, l.id ∉ l.driver_conflict_ids ∧ l.id ∉ l.duplicate_conflict_ids ∧
    l.id ∉ l.date_conflict_ids

/-- Helper building a non-cancelled load of a carrier with a load number
and no dates. -/
def mkCarrierLoad (i : Nat) (c : Nat) (n : String) : Load :=
  { id := i, cancelled := false, driver_id := none, carrier_id := some c,
    load_number := n, pickup_date := none, delivery_date := none,
    confirmed := true, driver_conflict := false, driver_conflict_ids := [],
    duplicate_conflict := false, duplicate_conflict_ids := [],
    date_conflict_ids := [] }

/-- The collection of the duplicate-grouping scenario: three loads of
carrier 1 with load numbers "A100", "a100 " (trailing space) and "A100",
and a fourth load of carrier 2 with load number "A100". -/
def dupScenarioDb : List Load :=
  [mkCarrierLoad 10 1 "A100", mkCarrierLoad 20 1 "a100 ",
   mkCarrierLoad 30 1 "A100", mkCarrierLoad 40 2 "A100"]

/-- The same scenario with the second load number stored already trimmed. -/
def dupScenarioDbTrimmed : List Load :=
  [mkCarrierLoad 10 1 "A100", mkCarrierLoad 20 1 "a100",
   mkCarrierLoad 30 1 "A100", mkCarrierLoad 40 2 "A100"]

/-- A collection containing a load of carrier 1 whose stored load number is
the empty string. -/
def emptyNumberDb : List Load := [mkCarrierLoad 7 1 ""]

/-- A collection with load numbers containing a regex metacharacter. -/
def plusNumberDb : List Load :=
  [mkCarrierLoad 11 1 "ld+100", mkCarrierLoad 12 1 "LD100", mkCarrierLoad 13 2 "LD+100"]

/-- A candidate load row as read for invoice generation.  The outer Option
of a date field is null-ness of the stored field; the inner Option is the
validity of the stored Date value (an Invalid Date object is truthy in the
route's null checks and fails only inside computeInvoiceWeekFields). -/
structure GenLoad where
  id : Nat
  carrier_id : Option Nat
  pickup_date : Option (Option Int)
  delivery_date : Option (Option Int)
  invoice_monday : Option Int
  invoice_week_id : Option String
deriving Repr, DecidableEq

/-- A persistence effect of the generation route, in issue order.  An
invoice save stands for generateInvoicePDF plus invoice.save. -/
inductive GenEffect where
  | bulkWriteInvoiceFields (updates : List (Nat × Int × String))
  | saveInvoice (invoiceNumber : String) (loadIds : List Nat)
  | markInvoiced (loadIds : List Nat)
deriving Repr, DecidableEq

/-- The response of the generation route: a 400 error carrying whatever
load ids its payload names, or a 201 with the number of invoices. -/
inductive GenResponse where
  | badRequest (error : String) (reportedLoadIds : List Nat)
  | createdOk (count : Nat)
deriving Repr, DecidableEq

/-- The load ids a response payload names. -/
def reportedIds : GenResponse → List Nat
  | .badRequest _ ids => ids
  | .createdOk _ => []

/-- The 400 message for a candidate load with a null date field. -/
def missingDatesError : String :=
  "Some loads are missing pickup_date or delivery_date; cannot generate invoices."

/-- The 400 message for a candidate load whose dates give no valid week. -/
def invalidDatesError : String :=
  "Some loads have invalid pickup_date or delivery_date; cannot generate invoices."

/-- The invoice-week computation for a candidate load (flattening the
stored nullable Date values). -/
def computeForGenLoad (l : GenLoad) : Option InvoiceWeekFields :=
  match l.pickup_date, l.delivery_date with
  | some p, some d => computeInvoiceWeekFields p d
  | _, _ => none

/-- The validation loop of the generation route: the computed invoice week
of every candidate in order, or the first 400 error. -/
def validateInvoiceWeeks : List GenLoad → Except String (List (Nat × InvoiceWeekFields))
  | [] => .ok []
  | l :: rest =>
    if l.pickup_date.isNone || l.delivery_date.isNone then .error missingDatesError
    else
      match computeForGenLoad l with
      | none => .error invalidDatesError
      | some cw => (validateInvoiceWeeks rest).map (fun tl => (l.id, cw) :: tl)

/-- The needsUpdate test and payload of the backfill bulkWrite: an update
for every load whose stored invoice_monday and invoice_week_id disagree
with the computed values. -/
def invoiceFieldUpdates (loads : List GenLoad)
    (computed : List (Nat × InvoiceWeekFields)) : List (Nat × Int × String) :=
  loads.filterMap (fun l =>
    match computed.lookup l.id with
    | some cw =>
      if l.invoice_monday == some cw.invoiceMonday &&
          l.invoice_week_id == some cw.invoiceWeekId then none
      else some (l.id, cw.invoiceMonday, cw.invoiceWeekId)
    | none => none)

/-- Insert a load id under its carrier-and-week key, keeping first-seen key
order (the Map byCarrierAndWeek of the route). -/
def insertGrouped (groups : List (String × String × List Nat))
    (key : String) (weekId : String) (i : Nat) : List (String × String × List Nat) :=
  if groups.any (fun g => g.1 == key) then
    groups.map (fun g => if g.1 == key then (g.1, g.2.1, g.2.2 ++ [i]) else g)
  else groups ++ [(key, weekId, [i])]

/-- The grouping loop of the route.  Every candidate normally has a
computed week by now; the fallback to the stored invoice_week_id and its
400 on a falsy week id are kept.  JavaScript renders a missing carrier id
as the string undefined. -/
def buildGroups : List GenLoad → List (Nat × InvoiceWeekFields) →
    List (String × String × List Nat) →
    Except String (List (String × String × List Nat))
  | [], _, acc => .ok acc
  | l :: rest, computed, acc =>
    let cidStr := match l.carrier_id with | some c => toString c | none => "undefined"
    let weekId :=
      match computed.lookup l.id with
      | some cw => cw.invoiceWeekId
      | none => match l.invoice_week_id with | some w => w | none => ""
    if weekId == "" then
      .error "Unable to determine invoice week for one or more loads."
    else
      buildGroups rest computed (insertGrouped acc (cidStr ++ "|" ++ weekId) weekId l.id)

/-- Code-unit order of two character lists, the comparison of the default
JavaScript array sort applied to the group keys (the keys are ASCII). -/
def charListLe : List Char → List Char → Bool
  | [], _ => true
  | _ :: _, [] => false
  | a :: as, b :: bs =>
    if a.toNat < b.toNat then true
    else if b.toNat < a.toNat then false
    else charListLe as bs

/-- String order for the sorted group keys. -/
def strLe (a b : String) : Bool := charListLe a.data b.data

/-- Insertion into a sorted list of keys. -/
def insertSorted (x : String) : List String → List String
  | [] => [x]
  | y :: ys => if strLe x y then x :: y :: ys else y :: insertSorted x ys

/-- The sort of the group keys (the keys of a Map are distinct, so any
comparison sort gives the same result). -/
def sortStrings : List String → List String
  | [] => []
  | x :: xs => insertSorted x (sortStrings xs)

/-- weekCompact of the route: the week id with the dashes removed. -/
def weekCompactOf (weekId : String) : String :=
  if weekId == "" then "unknownweek"
  else String.mk (weekId.data.filter (fun ch => !(ch == '-')))

/-- The invoice number of the i-th group: the base number alone for a
single group, else base-weekCompact-NN. -/
def invoiceNumberFor (base : String) (total : Nat) (weekId : String) (i : Nat) : String :=
  if total == 1 then base
  else base ++ "-" ++ weekCompactOf weekId ++ "-" ++ padZeros 2 (i + 1)

/-- The candidate-validation, backfill, grouping and creation sequence of
the generate route of invoices.js, from the fetched candidate rows: the
response and the ordered persistence effects.  PDF rendering and the
dispatcher lookup are outside the model. -/
def generateInvoicesCore (loads : List GenLoad) (baseInvoiceNumber : String) :
    GenResponse × List GenEffect :=
  let missingCarrier := (loads.filter (fun l => l.carrier_id.isNone)).map GenLoad.id
  if !missingCarrier.isEmpty then
    (.badRequest
      "Some loads are missing carrier assignment. Assign a carrier before generating invoices."
      missingCarrier, [])
  else
    match validateInvoiceWeeks loads with
    | .error e => (.badRequest e [], [])
    | .ok computed =>
      let updates := invoiceFieldUpdates loads computed
      let eff0 := if updates.isEmpty then ([] : List GenEffect)
        else [GenEffect.bulkWriteInvoiceFields updates]
      match buildGroups loads computed [] with
      | .error e => (.badRequest e [], eff0)
      | .ok groups =>
        let sortedKeys := sortStrings (groups.map (fun g => g.1))
        let n := sortedKeys.length
        let created := (List.range n).filterMap (fun i =>
          match sortedKeys.get? i with
          | some key =>
            match groups.find? (fun g => g.1 == key) with
            | some g =>
              if g.2.2.isEmpty then none
              else some (invoiceNumberFor baseInvoiceNumber n g.2.1 i, g.2.2)
            | none => none
          | none => none)
        let invoicedIds := created.foldl (fun acc ci => acc ++ ci.2) []
        (.createdOk created.length,
          eff0 ++ created.map (fun ci => GenEffect.saveInvoice ci.1 ci.2) ++
          (if invoicedIds.isEmpty then [] else [GenEffect.markInvoiced invoicedIds]))

/-- A candidate load with a carrier but no dates. -/
def genBadLoad : GenLoad :=
  { id := 7, carrier_id := some 1, pickup_date := none, delivery_date := none,
    invoice_monday := none, invoice_week_id := none }

/-- A candidate list whose only load has no dates. -/
def genBadLoadDb : List GenLoad := [genBadLoad]

/-- A list-row as handed to the conflict refresh orchestrator. -/
structure LoadRef where
  id : Nat
  driver_id : Option Nat
  carrier_id : Option Nat
  load_number : String
deriving Repr, DecidableEq

/-- normalizeLoadNumberKey of the orchestrator: trim, then lower-case. -/
def normalizeLoadNumberKey (loadNumber : String) : String :=
  String.mk (foldCase (trimChars loadNumber.data))

/-- The result of the single collection pass of refreshConflictsForLoads:
distinct driver ids in first-seen order, distinct carrier-and-number pairs
in first-seen order (keyed by carrier and case-folded trimmed number,
keeping the first trimmed number as the query value), and the loads whose
missing fields make them clear candidates. -/
structure RefreshPlan where
  driverIds : List Nat
  duplicatePairs : List (String × Nat × String)
  clearDriverIds : List Nat
  clearDuplicateIds : List Nat
deriving Repr, DecidableEq

/-- The collection pass of refreshConflictsForLoads. -/
def collectRefreshPlan (loads : List LoadRef) : RefreshPlan :=
  loads.foldl (fun acc l =>
    let acc1 :=
      match l.driver_id with
      | some d =>
        if acc.driverIds.contains d then acc
        else { acc with driverIds := acc.driverIds ++ [d] }
      | none => { acc with clearDriverIds := acc.clearDriverIds ++ [l.id] }
    let lnKey := normalizeLoadNumberKey l.load_number
    match l.carrier_id with
    | some c =>
      if lnKey == "" then
        { acc1 with clearDuplicateIds := acc1.clearDuplicateIds ++ [l.id] }
      else
        let key := toString c ++ "|" ++ lnKey
        if acc1.duplicatePairs.any (fun p => p.1 == key) then acc1
        else { acc1 with duplicatePairs :=
          acc1.duplicatePairs ++ [(key, c, String.mk (trimChars l.load_number.data))] }
    | none => { acc1 with clearDuplicateIds := acc1.clearDuplicateIds ++ [l.id] })
    ⟨[], [], [], []⟩

/-- runBatched of the orchestrator with its batch size 10: Promise.all over
each batch in turn; with single-threaded state threading this is a fold in
item order, and the chunking is kept structurally. -/
def runBatched10 {α σ : Type} (step : α → σ → σ) : List α → σ → σ
  | [], s => s
  | a :: rest, s =>
    runBatched10 step (rest.drop 9)
      ((a :: rest.take 9).foldl (fun acc x => step x acc) s)
termination_by items => items.length
decreasing_by
  simp only [List.length_cons, List.length_drop]
  omega

/-- A per-driver recompute attempt that may fail with a data-store error;
which attempts fail is an arbitrary parameter of the model. -/
def recalcDriverAttempt (failingDrivers : Nat → Bool) (d : Nat) (db : List Load) :
    Except Unit (List Load) :=
  if failingDrivers d then .error ()
  else .ok (recalculateDriverConflictsForDriver (some d) db)

/-- A per-pair duplicate recompute attempt that may fail. -/
def recalcDuplicateAttempt (failingPairs : Nat → String → Bool) (c : Nat) (n : String)
    (db : List Load) : Except Unit (List Load) :=
  if failingPairs c n then .error ()
  else .ok (recalculateDuplicateConflictsForCarrierLoadNumber (some c) n db)

/-- The per-item try/catch of the orchestrator: a failed driver recompute
is logged and skipped, leaving the collection as it was. -/
def driverRefreshStep (failingDrivers : Nat → Bool) (d : Nat) (db : List Load) :
    List Load :=
  match recalcDriverAttempt failingDrivers d db with
  | .ok db2 => db2
  | .error _ => db

/-- The per-item try/catch for a duplicate pair. -/
def duplicateRefreshStep (failingPairs : Nat → String → Bool)
    (pair : String × Nat × String) (db : List Load) : List Load :=
  match recalcDuplicateAttempt failingPairs pair.2.1 pair.2.2 db with
  | .ok db2 => db2
  | .error _ => db

/-- The updateMany clearing driver flags of the loads that cannot be in
conflict. -/
def clearDriverFlagsFor (ids : List Nat) (db : List Load) : List Load :=
  db.map (fun l =>
    if ids.contains l.id then
      { l with driver_conflict := false, driver_conflict_ids := [] }
    else l)

/-- The updateMany clearing duplicate flags. -/
def clearDuplicateFlagsFor (ids : List Nat) (db : List Load) : List Load :=
  db.map (fun l =>
    if ids.contains l.id then
      { l with duplicate_conflict := false, duplicate_conflict_ids := [] }
    else l)

/-- refreshConflictsForLoads of the orchestrator: collection pass, clears,
then the two batched recompute rounds, every per-item failure caught, the
whole body wrapped in an outer try/catch; returned as an Except to state
rejection behaviour. -/
def refreshConflictsForLoads (failingDrivers : Nat → Bool)
    (failingPairs : Nat → String → Bool) (loads : List LoadRef)
    (db : List Load) : Except String (List Load) :=
  let plan := collectRefreshPlan loads
  let db1 := if plan.clearDriverIds.isEmpty then db
    else clearDriverFlagsFor plan.clearDriverIds db
  let db2 := if plan.clearDuplicateIds.isEmpty then db1
    else clearDuplicateFlagsFor plan.clearDuplicateIds db1
  let db3 := runBatched10 (driverRefreshStep failingDrivers) plan.driverIds db2
  let db4 := runBatched10 (duplicateRefreshStep failingPairs) plan.duplicatePairs db3
  .ok db4

/-- The outcome the orchestrator is meant to produce: after the clears, the
per-driver recompute applied for exactly the collected drivers whose
recompute does not fail, then likewise for the collected pairs, in
collection order. -/
def refreshExpected (failingDrivers : Nat → Bool)
    (failingPairs : Nat → String → Bool) (loads : List LoadRef)
    (db : List Load) : List Load :=
  let plan := collectRefreshPlan loads
  let db1 := if plan.clearDriverIds.isEmpty then db
    else clearDriverFlagsFor plan.clearDriverIds db
  let db2 := if plan.clearDuplicateIds.isEmpty then db1
    else clearDuplicateFlagsFor plan.clearDuplicateIds db1
  let db3 := (plan.driverIds.filter (fun d => !failingDrivers d)).foldl
    (fun acc d => recalculateDriverConflictsForDriver (some d) acc) db2
  (plan.duplicatePairs.filter (fun p => !failingPairs p.2.1 p.2.2)).foldl
    (fun acc p =>
      recalculateDuplicateConflictsForCarrierLoadNumber (some p.2.1) p.2.2 acc) db3

theorem utcDayNumber_mul_self (k : Int) : utcDayNumber (MS_PER_DAY * k) = k := by
  unfold utcDayNumber MS_PER_DAY
  omega

/-- C1: for every pair of valid dates, computeInvoiceWeekFields returns as
invoiceMonday the Monday on or before the delivery date (the start of the
Monday-based week containing delivery), except that when the pickup date
falls exactly on that Monday the result is advanced by exactly 7 days; and
in particular pickup 2024-03-11 (a Monday) with delivery 2024-03-15 yields
invoiceMonday 2024-03-18. -/
theorem invoiceMonday_delivery_week_rule :
    (∀ p d : Int, ∃ M : Int,
      M = MS_PER_DAY * utcDayNumber M ∧
      getUTCDay M = 1 ∧
      utcDayNumber M ≤ utcDayNumber d ∧
      utcDayNumber d - utcDayNumber M < 7 ∧
      (computeInvoiceWeekFields (some p) (some d)).map InvoiceWeekFields.invoiceMonday =
        some (if utcDayNumber p = utcDayNumber M then M + 7 * MS_PER_DAY else M)) ∧
    computeInvoiceWeekFields (some (19793 * MS_PER_DAY)) (some (19797 * MS_PER_DAY)) =
      some { invoiceMonday := 19800 * MS_PER_DAY, invoiceWeekId := "2024-03-18" } := by
  constructor
  · intro p d
    refine ⟨MS_PER_DAY * (utcDayNumber d -
      (if (utcDayNumber d + 4) % 7 = 0 then 6
       else (utcDayNumber d + 4) % 7 - 1)), ?_, ?_, ?_, ?_, ?_⟩
    · rw [utcDayNumber_mul_self]
    · unfold getUTCDay
      rw [utcDayNumber_mul_self]
      unfold utcDayNumber MS_PER_DAY
      split <;> omega
    · rw [utcDayNumber_mul_self]
      unfold utcDayNumber MS_PER_DAY
      split <;> omega
    · rw [utcDayNumber_mul_self]
      unfold utcDayNumber MS_PER_DAY
      split <;> omega
    · have hpm : ∀ k : Int, MS_PER_DAY * utcDayNumber d - k * MS_PER_DAY =
          MS_PER_DAY * (utcDayNumber d - k) := by
        intro k; ring
      simp only [computeInvoiceWeekFields, toUtcMidnight, Option.map, getUTCDay,
        datesHaveSameUtcYmd, utcDayNumber_mul_self, hpm, beq_iff_eq, Option.map_some']
  · decide

/-- C7: computeInvoiceWeekFields returns null exactly when one of its inputs
is not a valid date, and for valid inputs it returns the record of an
invoice Monday and an invoice-week-id string. -/
theorem computeInvoiceWeekFields_none_iff :
    (∀ p d : Option Int,
      computeInvoiceWeekFields p d = none ↔ (p = none ∨ d = none)) ∧
    (∀ tp td : Int, ∃ r : InvoiceWeekFields,
      computeInvoiceWeekFields (some tp) (some td) = some r) := by
  constructor
  · intro p d
    cases p <;> cases d <;> simp [computeInvoiceWeekFields, toUtcMidnight]
  · intro tp td
    exact ⟨_, rfl⟩

/-- C2: the driver-conflict overlap test answers true exactly when, after
normalizing all four dates to date-only values (their UTC calendar days),
pickupA is before deliveryB and pickupB is before deliveryA; consequently
two loads whose deliveryA equals pickupB (touching boundary) never
conflict. -/
theorem intervalsOverlapDateOnly_iff :
    (∀ pa da pb db_ : Int,
      intervalsOverlapDateOnly pa da pb db_ = true ↔
        (utcDayNumber pa < utcDayNumber db_ ∧ utcDayNumber pb < utcDayNumber da)) ∧
    (∀ pa da pb db_ : Int, utcDayNumber da = utcDayNumber pb →
      intervalsOverlapDateOnly pa da pb db_ = false) := by
  have key : ∀ pa da pb db_ : Int,
      intervalsOverlapDateOnly pa da pb db_ = true ↔
        (utcDayNumber pa < utcDayNumber db_ ∧ utcDayNumber pb < utcDayNumber da) := by
    intro pa da pb db_
    simp only [intervalsOverlapDateOnly, toUtcDateOnly, Bool.and_eq_true, decide_eq_true_eq]
    unfold MS_PER_DAY
    omega
  refine ⟨key, ?_⟩
  intro pa da pb db_ h
  rcases hb : intervalsOverlapDateOnly pa da pb db_ with _ | _
  · rfl
  · have := (key pa da pb db_).mp hb
    omega

/-- Witness for the boundary clause of C2: two concrete touching intervals
(delivery of A on the same day as pickup of B) do not overlap. -/
theorem intervalsOverlapDateOnly_iff_witness :
    intervalsOverlapDateOnly 0 MS_PER_DAY MS_PER_DAY (2 * MS_PER_DAY) = false :=
  intervalsOverlapDateOnly_iff.2 0 MS_PER_DAY MS_PER_DAY (2 * MS_PER_DAY) (by decide)

theorem loadsOverlap_comm (a b : Load) : loadsOverlap a b = loadsOverlap b a := by
  unfold loadsOverlap intervalsOverlapDateOnly
  rcases a.pickup_date with _ | pa <;> rcases a.delivery_date with _ | da <;>
    rcases b.pickup_date with _ | pb <;> rcases b.delivery_date with _ | db_ <;>
    simp [Bool.and_comm]

theorem loadsOverlap_hasBothDates {a b : Load} :
    loadsOverlap a b = true → hasBothDates a = true ∧ hasBothDates b = true := by
  unfold loadsOverlap hasBothDates
  rcases a.pickup_date with _ | pa <;> rcases a.delivery_date with _ | da <;>
    rcases b.pickup_date with _ | pb <;> rcases b.delivery_date with _ | db_ <;>
    simp

theorem mem_driverPairsInner {a : Load} {L : List Load} {x y : Nat} :
    (x, y) ∈ driverPairsInner a L ↔
      ∃ b ∈ L, hasBothDates b = true ∧ loadsOverlap a b = true ∧
        ((x = a.id ∧ y = b.id) ∨ (x = b.id ∧ y = a.id)) := by
  induction L with
  | nil => simp [driverPairsInner]
  | cons c rest ih =>
    simp only [driverPairsInner]
    split
    next h =>
      rw [Bool.and_eq_true] at h
      simp only [List.mem_cons, Prod.mk.injEq, ih]
      constructor
      · rintro (⟨hx, hy⟩ | ⟨hx, hy⟩ | ⟨b, hb, h1, h2, h3⟩)
        · exact ⟨c, Or.inl rfl, h.1, h.2, Or.inl ⟨hx, hy⟩⟩
        · exact ⟨c, Or.inl rfl, h.1, h.2, Or.inr ⟨hx, hy⟩⟩
        · exact ⟨b, Or.inr hb, h1, h2, h3⟩
      · rintro ⟨b, hb | hb, h1, h2, h3⟩
        · subst hb
          rcases h3 with ⟨hx, hy⟩ | ⟨hx, hy⟩
          · exact Or.inl ⟨hx, hy⟩
          · exact Or.inr (Or.inl ⟨hx, hy⟩)
        · exact Or.inr (Or.inr ⟨b, hb, h1, h2, h3⟩)
    next h =>
      rw [Bool.and_eq_true] at h
      simp only [List.mem_cons, ih]
      constructor
      · rintro ⟨b, hb, h1, h2, h3⟩
        exact ⟨b, Or.inr hb, h1, h2, h3⟩
      · rintro ⟨b, hb | hb, h1, h2, h3⟩
        · subst hb
          exact absurd ⟨h1, h2⟩ h
        · exact ⟨b, hb, h1, h2, h3⟩

theorem driverPairs_complete {L : List Load} {a b : Load}
    (ha : a ∈ L) (hb : b ∈ L) (hne : a.id ≠ b.id)
    (hov : loadsOverlap a b = true) :
    (a.id, b.id) ∈ driverPairs L := by
  induction L with
  | nil => cases ha
  | cons c rest ih =>
    obtain ⟨hba, hbb⟩ := loadsOverlap_hasBothDates hov
    simp only [driverPairs, List.mem_append, List.mem_cons] at ha hb ⊢
    rcases ha with rfl | ha
    · rcases hb with rfl | hb
      · exact absurd rfl hne
      · left
        rw [if_pos hba]
        exact mem_driverPairsInner.mpr ⟨b, hb, hbb, hov, Or.inl ⟨rfl, rfl⟩⟩
    · rcases hb with rfl | hb
      · left
        rw [if_pos hbb]
        exact mem_driverPairsInner.mpr
          ⟨a, ha, hba, (loadsOverlap_comm b a).trans hov, Or.inr ⟨rfl, rfl⟩⟩
      · right
        exact ih ha hb

theorem driverPairs_sound {L : List Load} {x y : Nat}
    (hnd : (L.map Load.id).Nodup) (h : (x, y) ∈ driverPairs L) :
    ∃ a ∈ L, ∃ b ∈ L, a.id = x ∧ b.id = y ∧ x ≠ y ∧
      hasBothDates a = true ∧ hasBothDates b = true ∧ loadsOverlap a b = true := by
  induction L with
  | nil => simp [driverPairs] at h
  | cons c rest ih =>
    simp only [List.map_cons, List.nodup_cons] at hnd
    obtain ⟨hcid, hrest⟩ := hnd
    simp only [driverPairs, List.mem_append] at h
    rcases h with h | h
    · by_cases hbc : hasBothDates c = true
      · rw [if_pos hbc] at h
        obtain ⟨b, hb, h1, h2, h3⟩ := mem_driverPairsInner.mp h
        have hne : c.id ≠ b.id := fun he =>
          hcid (he ▸ List.mem_map_of_mem Load.id hb)
        obtain ⟨_, hbb⟩ := loadsOverlap_hasBothDates h2
        rcases h3 with ⟨hx, hy⟩ | ⟨hx, hy⟩
        · exact ⟨c, List.mem_cons_self c rest, b, List.mem_cons_of_mem c hb,
            hx.symm, hy.symm, by rw [hx, hy]; exact hne, hbc, hbb, h2⟩
        · exact ⟨b, List.mem_cons_of_mem c hb, c, List.mem_cons_self c rest,
            hx.symm, hy.symm, by rw [hx, hy]; exact fun he => hne he.symm,
            hbb, hbc, (loadsOverlap_comm b c).trans h2⟩
      · rw [if_neg hbc] at h
        cases h
    · obtain ⟨a, haL, b, hbL, prop⟩ := ih hrest h
      exact ⟨a, List.mem_cons_of_mem c haL, b, List.mem_cons_of_mem c hbL, prop⟩

theorem mem_conflictIdsFor {pairs : List (Nat × Nat)} {i x : Nat} :
    x ∈ conflictIdsFor pairs i ↔ (i, x) ∈ pairs := by
  unfold conflictIdsFor
  simp only [List.mem_map, List.mem_filter]
  constructor
  · rintro ⟨⟨p1, p2⟩, ⟨hp, he⟩, rfl⟩
    simp only [beq_iff_eq] at he
    subst he
    exact hp
  · intro hp
    exact ⟨(i, x), ⟨hp, by simp⟩, rfl⟩

theorem eq_of_mem_of_id_eq {L : List Load} (hnd : (L.map Load.id).Nodup)
    {a b : Load} (ha : a ∈ L) (hb : b ∈ L) (h : a.id = b.id) : a = b :=
  List.inj_on_of_nodup_map hnd ha hb h

theorem nodup_ids_filter {p : Load → Bool} {db : List Load}
    (hnd : (db.map Load.id).Nodup) : ((db.filter p).map Load.id).Nodup :=
  List.Nodup.sublist (List.Sublist.map Load.id (List.filter_sublist db)) hnd

theorem mem_driverLoadsFor {d : Nat} {db : List Load} {l : Load} :
    l ∈ driverLoadsFor d db ↔
      l ∈ db ∧ l.cancelled = false ∧ l.driver_id = some d := by
  unfold driverLoadsFor
  rw [List.mem_filter]
  simp

theorem recalcDriver_updated_mem {d : Nat} {db : List Load} {l : Load}
    (hl : l ∈ db) (hc : l.cancelled = false) (hd : l.driver_id = some d) :
    setDriverConflictFields
        (conflictIdsFor (driverPairs (driverLoadsFor d db)) l.id) l ∈
      recalculateDriverConflictsForDriver (some d) db := by
  have hmem : l ∈ driverLoadsFor d db := mem_driverLoadsFor.mpr ⟨hl, hc, hd⟩
  have hany : (driverLoadsFor d db).any (fun x => x.id == l.id) = true :=
    List.any_eq_true.mpr ⟨l, hmem, by simp⟩
  simp only [recalculateDriverConflictsForDriver]
  rw [List.mem_map]
  exact ⟨l, hl, by rw [if_pos hany]⟩

theorem mem_driverConflictIds_iff {d : Nat} {db : List Load}
    (hnd : (db.map Load.id).Nodup) {l : Load}
    (hl : l ∈ db) (hc : l.cancelled = false) (hd : l.driver_id = some d) (x : Nat) :
    x ∈ conflictIdsFor (driverPairs (driverLoadsFor d db)) l.id ↔
      ∃ b ∈ db, b.cancelled = false ∧ b.driver_id = some d ∧
        hasBothDates b = true ∧ b.id = x ∧ b.id ≠ l.id ∧ loadsOverlap l b = true := by
  have hmem : l ∈ driverLoadsFor d db := mem_driverLoadsFor.mpr ⟨hl, hc, hd⟩
  have hndl : ((driverLoadsFor d db).map Load.id).Nodup := nodup_ids_filter hnd
  rw [mem_conflictIdsFor]
  constructor
  · intro hp
    obtain ⟨a, haL, b, hbL, hax, hbx, hxy, hba, hbb, hov⟩ := driverPairs_sound hndl hp
    have hal : a = l := eq_of_mem_of_id_eq hndl haL hmem hax
    subst hal
    obtain ⟨hbdb, hbc, hbdrv⟩ := mem_driverLoadsFor.mp hbL
    refine ⟨b, hbdb, hbc, hbdrv, hbb, hbx, ?_, hov⟩
    rw [hbx, ← hax]
    exact fun he => hxy he.symm
  · rintro ⟨b, hbdb, hbc, hbdrv, hbb, hbx, hbne, hov⟩
    have hbloads : b ∈ driverLoadsFor d db := mem_driverLoadsFor.mpr ⟨hbdb, hbc, hbdrv⟩
    have hp := driverPairs_complete hmem hbloads (fun he => hbne he.symm) hov
    rw [hbx] at hp
    exact hp

/-- C3: recalculateDriverConflictsForDriver operates on the set of the
driver's non-cancelled loads with both dates set, and afterwards every load
of that set carries exactly the ids of the other loads of the set whose
intervals overlap it (a full replacement, empty when there are none), with
driver_conflict true exactly when that set of ids is non-empty. -/
theorem recalculateDriverConflicts_full_replace
    (d : Nat) (db : List Load) (hnd : (db.map Load.id).Nodup)
    (l : Load) (hl : l ∈ db)
    (hc : l.cancelled = false) (hd : l.driver_id = some d)
    (hbd : hasBothDates l = true) :
    ∃ l2 ∈ recalculateDriverConflictsForDriver (some d) db,
      l2.id = l.id ∧
      (∀ x : Nat, x ∈ l2.driver_conflict_ids ↔
        ∃ b ∈ db, b.cancelled = false ∧ b.driver_id = some d ∧
          hasBothDates b = true ∧ b.id = x ∧ b.id ≠ l.id ∧ loadsOverlap l b = true) ∧
      (l2.driver_conflict = true ↔ l2.driver_conflict_ids ≠ []) := by
  refine ⟨setDriverConflictFields
      (conflictIdsFor (driverPairs (driverLoadsFor d db)) l.id) l,
    recalcDriver_updated_mem hl hc hd, rfl, ?_, ?_⟩
  · intro x
    exact mem_driverConflictIds_iff hnd hl hc hd x
  · simp [setDriverConflictFields, List.length_pos]

/-- Witness for C3 on a concrete collection: driver 5 has loads 1 and 2
with overlapping intervals, a cancelled load 3 and an unrelated driver 6
load; the theorem applies to load 1. -/
theorem recalculateDriverConflicts_full_replace_witness :
    ∃ l2 ∈ recalculateDriverConflictsForDriver (some 5) exDbDriver,
      l2.id = exLoadA.id ∧
      (∀ x : Nat, x ∈ l2.driver_conflict_ids ↔
        ∃ b ∈ exDbDriver, b.cancelled = false ∧ b.driver_id = some 5 ∧
          hasBothDates b = true ∧ b.id = x ∧ b.id ≠ exLoadA.id ∧
          loadsOverlap exLoadA b = true) ∧
      (l2.driver_conflict = true ↔ l2.driver_conflict_ids ≠ []) :=
  recalculateDriverConflicts_full_replace 5 exDbDriver (by decide) exLoadA
    (by decide) (by decide) (by decide) (by decide)

/-- C5: after the per-driver recompute, the driver-conflict relation is
symmetric: two overlapping non-cancelled loads of the driver each list the
other. -/
theorem driverConflicts_symmetric
    (d : Nat) (db : List Load) (hnd : (db.map Load.id).Nodup)
    (a b : Load) (ha : a ∈ db) (hb : b ∈ db)
    (hca : a.cancelled = false) (hcb : b.cancelled = false)
    (hda : a.driver_id = some d) (hdb_ : b.driver_id = some d)
    (hne : a.id ≠ b.id) (hov : loadsOverlap a b = true) :
    (∃ a2 ∈ recalculateDriverConflictsForDriver (some d) db,
      a2.id = a.id ∧ b.id ∈ a2.driver_conflict_ids) ∧
    (∃ b2 ∈ recalculateDriverConflictsForDriver (some d) db,
      b2.id = b.id ∧ a.id ∈ b2.driver_conflict_ids) := by
  obtain ⟨hba, hbb⟩ := loadsOverlap_hasBothDates hov
  constructor
  · refine ⟨setDriverConflictFields
        (conflictIdsFor (driverPairs (driverLoadsFor d db)) a.id) a,
      recalcDriver_updated_mem ha hca hda, rfl, ?_⟩
    exact (mem_driverConflictIds_iff hnd ha hca hda b.id).mpr
      ⟨b, hb, hcb, hdb_, hbb, rfl, fun he => hne he.symm, hov⟩
  · refine ⟨setDriverConflictFields
        (conflictIdsFor (driverPairs (driverLoadsFor d db)) b.id) b,
      recalcDriver_updated_mem hb hcb hdb_, rfl, ?_⟩
    exact (mem_driverConflictIds_iff hnd hb hcb hdb_ a.id).mpr
      ⟨a, ha, hca, hda, hba, rfl, hne, (loadsOverlap_comm b a).trans hov⟩

/-- Witness for C5 on the concrete collection: loads 1 and 2 of driver 5
list each other after the recompute. -/
theorem driverConflicts_symmetric_witness :
    (∃ a2 ∈ recalculateDriverConflictsForDriver (some 5) exDbDriver,
      a2.id = exLoadA.id ∧ exLoadB.id ∈ a2.driver_conflict_ids) ∧
    (∃ b2 ∈ recalculateDriverConflictsForDriver (some 5) exDbDriver,
      b2.id = exLoadB.id ∧ exLoadA.id ∈ b2.driver_conflict_ids) :=
  driverConflicts_symmetric 5 exDbDriver (by decide) exLoadA exLoadB
    (by decide) (by decide) (by decide) (by decide) (by decide) (by decide)
    (by decide) (by decide)

theorem regexLiteralChars_escape (cs : List Char) :
    regexLiteralChars (escapeRegexChars cs) = some cs := by
  induction cs with
  | nil => rfl
  | cons c rest ih =>
    by_cases h : isRegexMeta c = true
    · have h1 : escapeRegexChars (c :: rest) = '\\' :: c :: escapeRegexChars rest := by
        simp [escapeRegexChars, h]
      have h2 : regexLiteralChars ('\\' :: c :: escapeRegexChars rest) =
          (regexLiteralChars (escapeRegexChars rest)).map (fun ts => c :: ts) := by
        rw [regexLiteralChars.eq_def]
        dsimp only
        rw [if_pos rfl]
      rw [h1, h2, ih]
      rfl
    · have hc : ¬(c = '\\') := by
        intro he
        subst he
        simp [isRegexMeta] at h
      have h1 : escapeRegexChars (c :: rest) = c :: escapeRegexChars rest := by
        simp [escapeRegexChars, h]
      have h2 : regexLiteralChars (c :: escapeRegexChars rest) =
          (regexLiteralChars (escapeRegexChars rest)).map (fun ts => c :: ts) := by
        rw [regexLiteralChars.eq_def]
        dsimp only
        rw [if_neg hc, if_neg h]
      rw [h1, h2, ih]
      rfl

/-- C10 (amended): for every carrier and every load number with non-empty
trim, and any collection, the duplicate-group query selects exactly the
non-cancelled loads of the carrier whose stored load_number equals the
trimmed input under literal case-insensitive comparison: the escaping keeps
every metacharacter literal, so none acts as a pattern operator. -/
theorem getDuplicateGroupLoads_literal
    (c : Nat) (n : String) (db : List Load) (h : normalizeLoadNumber n ≠ "") :
    getDuplicateGroupLoads (some c) n db =
      db.filter (fun l => !l.cancelled && l.carrier_id == some c &&
        caseInsensitiveEq (normalizeLoadNumber n) l.load_number) := by
  have hmatch : ∀ s : String,
      anchoredCaseInsensitiveMatch (escapeRegex (normalizeLoadNumber n)) s =
        caseInsensitiveEq (normalizeLoadNumber n) s := by
    intro s
    unfold anchoredCaseInsensitiveMatch escapeRegex caseInsensitiveEq
    rw [show (String.mk (escapeRegexChars (normalizeLoadNumber n).data)).data =
      escapeRegexChars (normalizeLoadNumber n).data from rfl]
    rw [regexLiteralChars_escape]
  have hne : (normalizeLoadNumber n == "") = false := by
    simp [h]
  unfold getDuplicateGroupLoads
  simp only [hne, Bool.false_eq_true, if_false, hmatch]

/-- Witness for C10 (amended) on a concrete collection: the query for
carrier 1 and load number " LD+100 " (metacharacter plus, surrounding
whitespace) selects exactly the stored "ld+100" of carrier 1. -/
theorem getDuplicateGroupLoads_literal_witness :
    normalizeLoadNumber " LD+100 " ≠ "" ∧
    getDuplicateGroupLoads (some 1) " LD+100 " plusNumberDb =
      plusNumberDb.filter (fun l => !l.cancelled && l.carrier_id == some 1 &&
        caseInsensitiveEq (normalizeLoadNumber " LD+100 ") l.load_number) :=
  ⟨by decide, getDuplicateGroupLoads_literal 1 " LD+100 " plusNumberDb (by decide)⟩

/-- Counterexample for C10 as universally stated: for the empty load number
the query returns nothing, although a stored empty load number is literally
equal (case-insensitively) to the trimmed input, so the query does not
select "exactly" the literally matching loads at this input. -/
theorem getDuplicateGroupLoads_empty_cex :
    getDuplicateGroupLoads (some 1) "" emptyNumberDb = [] ∧
    emptyNumberDb.filter (fun l => !l.cancelled && l.carrier_id == some 1 &&
      caseInsensitiveEq (normalizeLoadNumber "") l.load_number) = emptyNumberDb := by
  constructor
  · rfl
  · rfl

/-- Counterexample for C4 as stated: after the duplicate recompute for
carrier 1 with the queried load number "A100" — and likewise with
"a100 " — the load with stored number "A100" does not list the load whose
stored number is "a100 ": the stored value is compared untrimmed against
the anchored pattern, so its trailing space prevents the match. -/
theorem duplicateGrouping_trailing_space_cex :
    (∃ l ∈ recalculateDuplicateConflictsForCarrierLoadNumber (some 1) "A100" dupScenarioDb,
      l.id = 10 ∧ 20 ∉ l.duplicate_conflict_ids) ∧
    (∃ l ∈ recalculateDuplicateConflictsForCarrierLoadNumber (some 1) "a100 " dupScenarioDb,
      l.id = 10 ∧ 20 ∉ l.duplicate_conflict_ids) := by
  decide

/-- C4 (amended): with the three same-carrier load numbers stored trimmed
as "A100", "a100", "A100" (only the queried load number is trimmed; a
stored number keeps its whitespace and then never matches), the recompute
for carrier 1 and load number "A100" leaves the three mutually listed as
duplicates, and the same-numbered load of carrier 2 unlisted and
untouched. -/
theorem duplicateGrouping_mutual :
    (recalculateDuplicateConflictsForCarrierLoadNumber
        (some 1) "A100" dupScenarioDbTrimmed).map
        (fun l => (l.id, l.duplicate_conflict_ids, l.duplicate_conflict)) =
      [(10, [20, 30], true), (20, [10, 30], true),
       (30, [10, 20], true), (40, [], false)] := by
  decide

theorem findDriverConflictingLoads_not_self
    (loadId : Nat) (p dd : Option Int) (drv : Option Nat) (db : List Load) :
    loadId ∉ findDriverConflictingLoads loadId p dd drv db := by
  unfold findDriverConflictingLoads
  cases drv with
  | none => simp
  | some d =>
    cases p with
    | none => simp
    | some p0 =>
      cases dd with
      | none => simp
      | some dd0 =>
        intro hmem
        simp only [List.mem_map, List.mem_filter] at hmem
        obtain ⟨l, ⟨⟨_, hpred⟩, _⟩, hid⟩ := hmem
        rw [Bool.and_eq_true, Bool.and_eq_true] at hpred
        have : (l.id == loadId) = false := by
          rcases hpred with ⟨⟨hh, _⟩, _⟩
          rwa [Bool.not_eq_true'] at hh
        rw [hid] at this
        simp at this

/-- C6: every conflict-engine operation (per-driver recompute, single-load
driver check, per-carrier-and-number duplicate recompute, single-load
duplicate check) preserves the invariant that no load lists its own id in
driver_conflict_ids, duplicate_conflict_ids or date_conflict_ids. -/
theorem conflictOps_self_exclusion
    (db : List Load) (hnd : (db.map Load.id).Nodup) (hse : selfExcluded db)
    (d : Option Nat) (loadId : Nat) (p dd : Option Int) (drv : Option Nat)
    (c : Option Nat) (n : String) (loadId2 : Nat) (c2 : Option Nat) (n2 : String) :
    selfExcluded (recalculateDriverConflictsForDriver d db) ∧
    selfExcluded (checkAndUpdateDriverConflictsForLoad loadId p dd drv db) ∧
    selfExcluded (recalculateDuplicateConflictsForCarrierLoadNumber c n db) ∧
    selfExcluded (checkAndUpdateDuplicateConflictsForLoad loadId2 c2 n2 db) := by
  refine ⟨?_, ?_, ?_, ?_⟩
  · cases d with
    | none => exact hse
    | some d0 =>
      intro l2 hl2
      simp only [recalculateDriverConflictsForDriver, List.mem_map] at hl2
      obtain ⟨l0, hl0, rfl⟩ := hl2
      by_cases hcond : ((driverLoadsFor d0 db).any (fun x => x.id == l0.id)) = true
      · rw [if_pos hcond]
        obtain ⟨_, h2, h3⟩ := hse l0 hl0
        simp only [setDriverConflictFields]
        refine ⟨?_, h2, h3⟩
        intro hmemids
        rw [mem_conflictIdsFor] at hmemids
        obtain ⟨a, _, b, _, _, _, hxy, _⟩ :=
          driverPairs_sound (nodup_ids_filter hnd) hmemids
        exact hxy rfl
      · rw [if_neg hcond]
        exact hse l0 hl0
  · unfold checkAndUpdateDriverConflictsForLoad
    split
    · intro l2 hl2
      rw [List.mem_map] at hl2
      obtain ⟨l0, hl0, rfl⟩ := hl2
      by_cases hcond : (l0.id == loadId) = true
      · rw [if_pos hcond]
        obtain ⟨_, h2, h3⟩ := hse l0 hl0
        exact ⟨by simp, h2, h3⟩
      · rw [if_neg hcond]
        exact hse l0 hl0
    · unfold updateLoadDriverConflicts
      intro l2 hl2
      rw [List.mem_map] at hl2
      obtain ⟨l0, hl0, rfl⟩ := hl2
      by_cases hcond : (l0.id == loadId) = true
      · rw [if_pos hcond]
        obtain ⟨_, h2, h3⟩ := hse l0 hl0
        simp only [setDriverConflictFields]
        refine ⟨?_, h2, h3⟩
        rw [beq_iff_eq] at hcond
        rw [hcond]
        exact findDriverConflictingLoads_not_self loadId p dd drv db
      · rw [if_neg hcond]
        exact hse l0 hl0
  · simp only [recalculateDuplicateConflictsForCarrierLoadNumber]
    by_cases hguard : (getDuplicateGroupLoads c n db).isEmpty = true
    · rw [if_pos hguard]
      exact hse
    · rw [if_neg hguard]
      intro l2 hl2
      rw [List.mem_map] at hl2
      obtain ⟨l0, hl0, rfl⟩ := hl2
      by_cases hcond :
          ((getDuplicateGroupLoads c n db).any (fun g => g.id == l0.id)) = true
      · rw [if_pos hcond]
        obtain ⟨h1, _, h3⟩ := hse l0 hl0
        simp only [setDuplicateConflictFields]
        refine ⟨h1, ?_, h3⟩
        intro hmemids
        rw [List.mem_filter] at hmemids
        simp at hmemids
      · rw [if_neg hcond]
        exact hse l0 hl0
  · unfold checkAndUpdateDuplicateConflictsForLoad
    split
    · unfold clearDuplicateConflictsForLoad
      intro l2 hl2
      rw [List.mem_map] at hl2
      obtain ⟨l0, hl0, rfl⟩ := hl2
      by_cases hcond : (l0.id == loadId2) = true
      · rw [if_pos hcond]
        obtain ⟨h1, _, h3⟩ := hse l0 hl0
        exact ⟨h1, by simp, h3⟩
      · rw [if_neg hcond]
        exact hse l0 hl0
    · intro l2 hl2
      rw [List.mem_map] at hl2
      obtain ⟨l0, hl0, rfl⟩ := hl2
      by_cases hcond : (l0.id == loadId2) = true
      · rw [if_pos hcond]
        obtain ⟨h1, _, h3⟩ := hse l0 hl0
        simp only [setDuplicateConflictFields]
        refine ⟨h1, ?_, h3⟩
        intro hmemids
        rw [beq_iff_eq] at hcond
        simp only [List.mem_map, List.mem_filter] at hmemids
        obtain ⟨g, ⟨_, hgpred⟩, hgid⟩ := hmemids
        rw [Bool.not_eq_true', beq_eq_false_iff_ne] at hgpred
        exact hgpred (hgid.trans hcond)
      · rw [if_neg hcond]
        exact hse l0 hl0

/-- Witness for C6 on the concrete collection exDbDriver, which has unique
ids and initially empty conflict sets: all four operations preserve
self-exclusion there. -/
theorem conflictOps_self_exclusion_witness :
    selfExcluded (recalculateDriverConflictsForDriver (some 5) exDbDriver) ∧
    selfExcluded (checkAndUpdateDriverConflictsForLoad 1 (some 0)
      (some (4 * MS_PER_DAY)) (some 5) exDbDriver) ∧
    selfExcluded (recalculateDuplicateConflictsForCarrierLoadNumber
      (some 9) "LA" exDbDriver) ∧
    selfExcluded (checkAndUpdateDuplicateConflictsForLoad 2 (some 9) "LB" exDbDriver) :=
  conflictOps_self_exclusion exDbDriver (by decide)
    (by unfold selfExcluded; decide)
    (some 5) 1 (some 0) (some (4 * MS_PER_DAY)) (some 5) (some 9) "LA" 2 (some 9) "LB"

theorem validateInvoiceWeeks_error {loads : List GenLoad}
    (hbad : ∃ l ∈ loads, computeForGenLoad l = none) :
    ∃ e, (e = missingDatesError ∨ e = invalidDatesError) ∧
      validateInvoiceWeeks loads = .error e := by
  induction loads with
  | nil => simp at hbad
  | cons l rest ih =>
    by_cases h1 : (l.pickup_date.isNone || l.delivery_date.isNone) = true
    · exact ⟨missingDatesError, Or.inl rfl, by simp [validateInvoiceWeeks, h1]⟩
    · rcases hc : computeForGenLoad l with _ | cw
      · exact ⟨invalidDatesError, Or.inr rfl, by simp [validateInvoiceWeeks, h1, hc]⟩
      · obtain ⟨b, hb, hbnone⟩ := hbad
        rcases List.mem_cons.mp hb with rfl | hb2
        · rw [hc] at hbnone
          cases hbnone
        · obtain ⟨e, he, herr⟩ := ih ⟨b, hb2, hbnone⟩
          refine ⟨e, he, ?_⟩
          simp [validateInvoiceWeeks, h1, hc, herr, Except.map]

/-- C8 (amended): when every candidate load has a carrier and some
candidate has a missing date or dates that give no valid invoice week, the
generation request answers 400 with no persistence effect issued — no
invoice record is created and no load is touched, so the failure is atomic
— but the error response is one of two generic messages and does not
identify the invalid loads. -/
theorem generateInvoices_atomic_on_invalid
    (loads : List GenLoad) (base : String)
    (hcarrier : ∀ l ∈ loads, l.carrier_id.isSome = true)
    (hbad : ∃ l ∈ loads, computeForGenLoad l = none) :
    ∃ e, (e = missingDatesError ∨ e = invalidDatesError) ∧
      generateInvoicesCore loads base = (.badRequest e [], []) := by
  obtain ⟨e, he, herr⟩ := validateInvoiceWeeks_error hbad
  refine ⟨e, he, ?_⟩
  have hmc : loads.filter (fun l => l.carrier_id.isNone) = [] := by
    rw [List.filter_eq_nil_iff]
    intro l hl
    have hsome := hcarrier l hl
    rcases hv : l.carrier_id with _ | v
    · rw [hv] at hsome
      simp at hsome
    · simp [hv]
  unfold generateInvoicesCore
  rw [hmc]
  simp [herr]

/-- Witness for C8 (amended): the single candidate load 7 has a carrier but
null dates; generation answers a dates 400 with no effects. -/
theorem generateInvoices_atomic_on_invalid_witness :
    ∃ e, (e = missingDatesError ∨ e = invalidDatesError) ∧
      generateInvoicesCore genBadLoadDb "INV-1" = (.badRequest e [], []) :=
  generateInvoices_atomic_on_invalid genBadLoadDb "INV-1" (by decide)
    ⟨genBadLoad, by decide, rfl⟩

/-- Counterexample for C8 as stated: with the single invalid candidate load
7, the failure response names no load ids at all, so it does not report
which loads were invalid (the missing-carrier 400 does name ids, the
missing-or-invalid-dates 400 does not). -/
theorem generateInvoices_reports_no_ids_cex :
    genBadLoad.id = 7 ∧ genBadLoad ∈ genBadLoadDb ∧
    computeForGenLoad genBadLoad = none ∧
    (generateInvoicesCore genBadLoadDb "INV-1").1 =
      .badRequest missingDatesError [] ∧
    reportedIds (generateInvoicesCore genBadLoadDb "INV-1").1 = [] := by
  refine ⟨rfl, by decide, rfl, ?_, ?_⟩ <;> rfl

theorem runBatched10_eq_foldl {α σ : Type} (step : α → σ → σ) :
    ∀ items : List α, ∀ s : σ,
      runBatched10 step items s = items.foldl (fun acc x => step x acc) s := by
  have H : ∀ n : Nat, ∀ items : List α, items.length ≤ n → ∀ s : σ,
      runBatched10 step items s = items.foldl (fun acc x => step x acc) s := by
    intro n
    induction n with
    | zero =>
      intro items hlen s
      have : items = [] := List.eq_nil_of_length_eq_zero (Nat.le_zero.mp hlen)
      subst this
      rw [runBatched10]
      rfl
    | succ n ih =>
      intro items hlen s
      cases items with
      | nil =>
        rw [runBatched10]
        rfl
      | cons a rest =>
        rw [runBatched10]
        rw [ih (rest.drop 9) (by
          simp only [List.length_cons] at hlen
          simp only [List.length_drop]
          omega)]
        rw [← List.foldl_append]
        rw [show (a :: rest.take 9) ++ rest.drop 9 = a :: rest from by
          rw [List.cons_append, List.take_append_drop]]
  intro items s
  exact H items.length items (Nat.le_refl _) s

theorem driver_foldl_filter (failingDrivers : Nat → Bool) :
    ∀ (items : List Nat) (s : List Load),
      items.foldl (fun acc d => driverRefreshStep failingDrivers d acc) s =
        (items.filter (fun d => !failingDrivers d)).foldl
          (fun acc d => recalculateDriverConflictsForDriver (some d) acc) s := by
  intro items
  induction items with
  | nil => intro s; rfl
  | cons a rest ih =>
    intro s
    rw [List.foldl_cons, List.filter_cons]
    by_cases h : failingDrivers a = true
    · rw [if_neg (by simp [h])]
      rw [show driverRefreshStep failingDrivers a s = s from by
        simp [driverRefreshStep, recalcDriverAttempt, h]]
      exact ih s
    · rw [if_pos (by simp [h])]
      rw [List.foldl_cons]
      rw [show driverRefreshStep failingDrivers a s =
          recalculateDriverConflictsForDriver (some a) s from by
        simp [driverRefreshStep, recalcDriverAttempt, h]]
      exact ih _

theorem duplicate_foldl_filter (failingPairs : Nat → String → Bool) :
    ∀ (items : List (String × Nat × String)) (s : List Load),
      items.foldl (fun acc p => duplicateRefreshStep failingPairs p acc) s =
        (items.filter (fun p => !failingPairs p.2.1 p.2.2)).foldl
          (fun acc p =>
            recalculateDuplicateConflictsForCarrierLoadNumber (some p.2.1) p.2.2 acc) s := by
  intro items
  induction items with
  | nil => intro s; rfl
  | cons a rest ih =>
    intro s
    rw [List.foldl_cons, List.filter_cons]
    by_cases h : failingPairs a.2.1 a.2.2 = true
    · rw [if_neg (by simp [h])]
      rw [show duplicateRefreshStep failingPairs a s = s from by
        simp [duplicateRefreshStep, recalcDuplicateAttempt, h]]
      exact ih s
    · rw [if_pos (by simp [h])]
      rw [List.foldl_cons]
      rw [show duplicateRefreshStep failingPairs a s =
          recalculateDuplicateConflictsForCarrierLoadNumber (some a.2.1) a.2.2 s from by
        simp [duplicateRefreshStep, recalcDuplicateAttempt, h]]
      exact ih _

/-- C9: the batch conflict-refresh orchestrator never rejects — for every
batch, every collection and every set of failing recomputes it returns
normally — and its outcome applies exactly the recomputes that do not
fail, so the failure of the recompute of one driver or one
carrier-and-number pair does not prevent the recomputes of the other
collected drivers and pairs from being attempted and completing. -/
theorem refreshConflictsForLoads_total_and_isolated
    (failingDrivers : Nat → Bool) (failingPairs : Nat → String → Bool)
    (loads : List LoadRef) (db : List Load) :
    refreshConflictsForLoads failingDrivers failingPairs loads db =
      .ok (refreshExpected failingDrivers failingPairs loads db) := by
  unfold refreshConflictsForLoads refreshExpected
  dsimp only
  rw [runBatched10_eq_foldl, runBatched10_eq_foldl]
  rw [driver_foldl_filter, duplicate_foldl_filter]

end Invoicing
